import Mathlib

/-!
# Verification of the FilesUpload chunked-upload system

Shallow embedding of the chunked file-upload client and server:

* `src/fileUpload/src/utils/fileChunk.ts` — `createFileChunks`, `calculateHash`;
* `src/server/routes/index.js` — the `/upload`, `/check`, `/merge` route
  handlers over an explicit server state (artifacts directory plus
  per-fingerprint chunk staging directories, both modelled as association
  lists mirroring a flat file system);
* `src/fileUpload/src/components/FileUploader.tsx` together with
  `src/fileUpload/src/services/uploadService.ts` — the client upload
  orchestration, embedded as the trace of externally visible events
  (transport requests, aborts, status reports) of one batch run.

Bytes are modelled as `Nat` (the byte values; no arithmetic is performed on
them, so no modular wrapping is needed), byte buffers as `List Nat`, and
JavaScript strings as Lean `String`.
-/

/-- A browser `File` object as used by the client code: a name, a
`lastModified` timestamp (milliseconds, a plain number in JS), and the
underlying bytes.  `file.size` is `content.length`. -/
structure JsFile where
  name : String
  lastModified : Nat
  content : List Nat
deriving Repr, DecidableEq

/-- One element of the array returned by `createFileChunks`
(`fileChunk.ts`, interface `Chunk`): the sliced `Blob` (its bytes) and the
0-based index the client assigned to it. -/
structure Chunk where
  file : List Nat
  index : Nat
deriving Repr, DecidableEq

/-- `Blob.slice(start, stop)`: the bytes in positions
`[start, min(stop, size))` of the blob (JS clamps out-of-range bounds). -/
def blobSlice (bytes : List Nat) (start stop : Nat) : List Nat :=
  (bytes.take stop).drop start

/-- The default chunk size of `createFileChunks`: `5 * 1024 * 1024`
(5 MiB), its default parameter in `fileChunk.ts`. -/
def defaultChunkSize : Nat := 5 * 1024 * 1024

/-- The loop of `createFileChunks` (`fileChunk.ts` lines 6–17):
`while (cur < file.size) { chunks.push({file: file.slice(cur, cur+chunkSize),
index: chunks.length}); cur += chunkSize; }`.
`idx` threads `chunks.length` at the moment of each push (pushing to the
end of the accumulator is rendered as consing onto the remainder, which
yields the same list).  The loop is embedded with explicit fuel; with
`chunkSize = 0` the source loop never terminates, and correspondingly no
fuel is sufficient — all theorems assume a positive chunk size. -/
def createFileChunksGo (fuel : Nat) (bytes : List Nat) (chunkSize cur idx : Nat) : List Chunk :=
  match fuel with
  | 0 => []
  | fuel + 1 =>
    if cur < bytes.length then
      { file := blobSlice bytes cur (cur + chunkSize), index := idx } ::
        createFileChunksGo fuel bytes chunkSize (cur + chunkSize) (idx + 1)
    else []

/-- `createFileChunks(file, chunkSize)` from `fileChunk.ts`.  The fuel
`bytes.length + 1` dominates the number of loop iterations for every
positive chunk size. -/
def createFileChunks (file : JsFile) (chunkSize : Nat) : List Chunk :=
  createFileChunksGo (file.content.length + 1) file.content chunkSize 0 0

/-- `createFileChunks(file)` with the default 5 MiB chunk size, as invoked
by `handleFileUpload` in `FileUploader.tsx`. -/
def createFileChunksDefault (file : JsFile) : List Chunk :=
  createFileChunks file defaultChunkSize

/-- The character replacement of `calculateHash`
(`file.name.replace(/[^a-zA-Z0-9]/g, '_')`): any character that is not an
ASCII letter or digit becomes an underscore. -/
def sanitizeChar (c : Char) : Char :=
  if ('a' ≤ c ∧ c ≤ 'z') ∨ ('A' ≤ c ∧ c ≤ 'Z') ∨ ('0' ≤ c ∧ c ≤ '9') then c else '_'

/-- `file.name.replace(/[^a-zA-Z0-9]/g, '_')`, applied character by
character.  (Mapped over the underlying character list so that the kernel
can evaluate it.) -/
def safeName (s : String) : String :=
  ⟨s.data.map sanitizeChar⟩

/-- `calculateHash` (`fileChunk.ts` lines 19–23): the template string
`` `${safeName}_${file.lastModified}` ``.  It reads only the file's name
and `lastModified` timestamp — never `file.content`. -/
def calculateHash (file : JsFile) : String :=
  safeName file.name ++ "_" ++ toString file.lastModified

/-! ## Chunk splitter: supporting lemmas -/

theorem blobSlice_eq_drop_take (bytes : List Nat) (cur n : Nat) :
    blobSlice bytes cur (cur + n) = (bytes.drop cur).take n := by
  unfold blobSlice
  rw [List.drop_take]
  congr 1
  omega

theorem createFileChunksGo_stop (fuel : Nat) (bytes : List Nat) (s cur idx : Nat)
    (h : bytes.length ≤ cur) : createFileChunksGo fuel bytes s cur idx = [] := by
  cases fuel with
  | zero => rfl
  | succ fuel =>
    unfold createFileChunksGo
    rw [if_neg (by omega)]

theorem createFileChunksGo_step (fuel : Nat) (bytes : List Nat) (s cur idx : Nat)
    (h : cur < bytes.length) :
    createFileChunksGo (fuel + 1) bytes s cur idx =
      { file := blobSlice bytes cur (cur + s), index := idx } ::
        createFileChunksGo fuel bytes s (cur + s) (idx + 1) := by
  conv_lhs => rw [createFileChunksGo]
  rw [if_pos h]

/-- The ceiling-division recurrence used to count loop iterations:
for positive `s` and positive remaining length `d`,
`⌈d/s⌉ = ⌈(d-s)/s⌉ + 1` (with truncated subtraction). -/
theorem ceil_div_rec (d s : Nat) (hs : 0 < s) (hd : 0 < d) :
    (d + s - 1) / s = (d - s + s - 1) / s + 1 := by
  rcases le_or_lt d s with hle | hlt
  · have h1 : d - s = 0 := by omega
    rw [h1]
    have h2 : (0 + s - 1) / s = 0 := Nat.div_eq_of_lt (by omega)
    rw [h2]
    exact Nat.div_eq_of_lt_le (by omega) (by omega)
  · have h3 : d + s - 1 = (d - s + s - 1) + s := by omega
    rw [h3, Nat.add_div_right _ hs]

theorem createFileChunksGo_length (fuel : Nat) (bytes : List Nat) (s : Nat) (hs : 0 < s) :
    ∀ cur idx, bytes.length ≤ cur + fuel * s →
      (createFileChunksGo fuel bytes s cur idx).length = (bytes.length - cur + s - 1) / s := by
  induction fuel with
  | zero =>
    intro cur idx hfuel
    simp only [Nat.zero_mul, Nat.add_zero] at hfuel
    rw [createFileChunksGo_stop _ _ _ _ _ hfuel]
    have h1 : bytes.length - cur = 0 := by omega
    rw [h1]
    simp only [List.length_nil]
    exact (Nat.div_eq_of_lt (by omega)).symm
  | succ fuel ih =>
    intro cur idx hfuel
    rcases Nat.lt_or_ge cur bytes.length with h | h
    · rw [createFileChunksGo_step _ _ _ _ _ h, List.length_cons]
      rw [ih (cur + s) (idx + 1) (by have := hfuel; ring_nf at this ⊢; omega)]
      have hrec := ceil_div_rec (bytes.length - cur) s hs (by omega)
      have harg : bytes.length - (cur + s) = bytes.length - cur - s := by omega
      rw [harg]
      omega
    · rw [createFileChunksGo_stop _ _ _ _ _ h]
      have h1 : bytes.length - cur = 0 := by omega
      rw [h1]
      simp only [List.length_nil]
      exact (Nat.div_eq_of_lt (by omega)).symm

theorem createFileChunksGo_get (fuel : Nat) (bytes : List Nat) (s : Nat) :
    ∀ cur idx i, bytes.length ≤ cur + fuel * s → cur + i * s < bytes.length →
      (createFileChunksGo fuel bytes s cur idx)[i]? =
        some { file := blobSlice bytes (cur + i * s) (cur + i * s + s), index := idx + i } := by
  induction fuel with
  | zero =>
    intro cur idx i hfuel hi
    exfalso
    simp only [Nat.zero_mul, Nat.add_zero] at hfuel
    omega
  | succ fuel ih =>
    intro cur idx i hfuel hi
    have hcur : cur < bytes.length := by
      have : cur ≤ cur + i * s := Nat.le_add_right _ _
      omega
    rw [createFileChunksGo_step _ _ _ _ _ hcur]
    cases i with
    | zero =>
      simp only [List.getElem?_cons_zero, Nat.zero_mul, Nat.add_zero]
    | succ j =>
      simp only [List.getElem?_cons_succ]
      rw [ih (cur + s) (idx + 1) j (by ring_nf at hfuel ⊢; omega)
        (by have : cur + s + j * s = cur + (j + 1) * s := by ring
            rw [this]; exact hi)]
      congr 2
      · congr 1 <;> ring
      · ring

theorem createFileChunks_length (file : JsFile) (s : Nat) (hs : 0 < s) :
    (createFileChunks file s).length = (file.content.length + s - 1) / s := by
  unfold createFileChunks
  rw [createFileChunksGo_length _ _ _ hs 0 0
    (by
      have h1 : (file.content.length + 1) * 1 ≤ (file.content.length + 1) * s :=
        Nat.mul_le_mul_left _ hs
      omega)]
  rw [Nat.sub_zero]

theorem createFileChunks_get (file : JsFile) (s i : Nat) (hs : 0 < s)
    (hi : i * s < file.content.length) :
    (createFileChunks file s)[i]? =
      some { file := (file.content.drop (i * s)).take s, index := i } := by
  unfold createFileChunks
  rw [createFileChunksGo_get _ _ _ 0 0 i
    (by
      have h1 : (file.content.length + 1) * 1 ≤ (file.content.length + 1) * s :=
        Nat.mul_le_mul_left _ hs
      omega)
    (by omega)]
  rw [Nat.zero_add, Nat.zero_add, blobSlice_eq_drop_take]

theorem createFileChunks_index_lt_iff (file : JsFile) (s : Nat) (hs : 0 < s) (i : Nat) :
    i < (createFileChunks file s).length ↔ i * s < file.content.length := by
  rw [createFileChunks_length _ _ hs]
  constructor
  · intro h
    by_contra hge
    have hge2 : file.content.length ≤ i * s := by omega
    have : (file.content.length + s - 1) / s < i + 1 := by
      rw [Nat.div_lt_iff_lt_mul hs]
      have : (i + 1) * s = i * s + s := by ring
      omega
    omega
  · intro h
    have : i + 1 ≤ (file.content.length + s - 1) / s := by
      rw [Nat.le_div_iff_mul_le hs]
      have : (i + 1) * s = i * s + s := by ring
      omega
    omega

/-- C7: for every file and every positive chunk size (the source default is
5 MiB), `createFileChunks` produces exactly `⌈fileSize / size⌉` chunks
(stated as `(fileSize + size - 1) / size` together with the defining
property of the ceiling: the chunks cover the file and no smaller count
does); chunk `i` carries the byte range `[i*size, min((i+1)*size, fileSize))`,
indices are 0-based, contiguous and in order; every chunk except possibly
the last has exactly `size` bytes.  Determinism (calling it again on the
same inputs yields the identical partition) is definitional, the embedding
being a pure function of its arguments. -/
theorem createFileChunks_spec (file : JsFile) (size : Nat) (hs : 0 < size) :
    (createFileChunks file size).length = (file.content.length + size - 1) / size
  ∧ file.content.length ≤ (createFileChunks file size).length * size
  ∧ (∀ m, file.content.length ≤ m * size → (createFileChunks file size).length ≤ m)
  ∧ (∀ i, i < (createFileChunks file size).length →
      (createFileChunks file size)[i]? =
        some { file := blobSlice file.content (i * size) (i * size + size), index := i })
  ∧ (∀ i, i < (createFileChunks file size).length →
      (createFileChunks file size)[i]? =
        some { file := (file.content.drop (i * size)).take size, index := i })
  ∧ (∀ i, i < (createFileChunks file size).length → ∀ c,
      (createFileChunks file size)[i]? = some c →
        c.index = i ∧ c.file.length = min size (file.content.length - i * size))
  ∧ (∀ i, i + 1 < (createFileChunks file size).length → ∀ c,
      (createFileChunks file size)[i]? = some c → c.file.length = size) := by
  have hget : ∀ i, i < (createFileChunks file size).length →
      (createFileChunks file size)[i]? =
        some { file := (file.content.drop (i * size)).take size, index := i } := by
    intro i hi
    exact createFileChunks_get _ _ _ hs ((createFileChunks_index_lt_iff _ _ hs i).mp hi)
  refine ⟨createFileChunks_length _ _ hs, ?_, ?_, ?_, hget, ?_, ?_⟩
  · rw [createFileChunks_length _ _ hs]
    have h1 := Nat.div_add_mod (file.content.length + size - 1) size
    have h2 : (file.content.length + size - 1) % size < size :=
      Nat.mod_lt _ hs
    rw [Nat.mul_comm]
    omega
  · intro m hm
    rw [createFileChunks_length _ _ hs]
    rw [Nat.mul_comm] at hm
    have hnum : file.content.length + size - 1 ≤ size * m + (size - 1) := by omega
    have h1 : (file.content.length + size - 1) / size ≤ (size * m + (size - 1)) / size :=
      Nat.div_le_div_right hnum
    have h2 : (size * m + (size - 1)) / size = m + (size - 1) / size :=
      Nat.mul_add_div hs m (size - 1)
    have h3 : (size - 1) / size = 0 := Nat.div_eq_of_lt (by omega)
    omega
  · intro i hi
    rw [hget i hi]
    rw [blobSlice_eq_drop_take]
  · intro i hi c hc
    rw [hget i hi] at hc
    have hc2 := Option.some.inj hc
    subst hc2
    refine ⟨rfl, ?_⟩
    simp only [List.length_take, List.length_drop]
  · intro i hi c hc
    rw [hget i (by omega)] at hc
    have hc2 := Option.some.inj hc
    subst hc2
    simp only [List.length_take, List.length_drop]
    have h1 : (i + 1) * size < file.content.length :=
      (createFileChunks_index_lt_iff _ _ hs (i + 1)).mp hi
    have h2 : (i + 1) * size = i * size + size := by ring
    omega

/-- Witness for C7 at a concrete input: a 5-byte file with chunk size 2
splits into 3 chunks `[0,1] / [2,3] / [4]`. -/
theorem createFileChunks_spec_witness :
    (0 < 2
  ∧ createFileChunks (JsFile.mk "f" 0 [10, 11, 12, 13, 14]) 2 =
      [{ file := [10, 11], index := 0 }, { file := [12, 13], index := 1 },
       { file := [14], index := 2 }])
  ∧ ((createFileChunks (JsFile.mk "f" 0 [10, 11, 12, 13, 14]) 2).length =
      ((JsFile.mk "f" 0 [10, 11, 12, 13, 14]).content.length + 2 - 1) / 2
  ∧ (JsFile.mk "f" 0 [10, 11, 12, 13, 14]).content.length ≤
      (createFileChunks (JsFile.mk "f" 0 [10, 11, 12, 13, 14]) 2).length * 2
  ∧ (∀ m, (JsFile.mk "f" 0 [10, 11, 12, 13, 14]).content.length ≤ m * 2 →
      (createFileChunks (JsFile.mk "f" 0 [10, 11, 12, 13, 14]) 2).length ≤ m)
  ∧ (∀ i, i < (createFileChunks (JsFile.mk "f" 0 [10, 11, 12, 13, 14]) 2).length →
      (createFileChunks (JsFile.mk "f" 0 [10, 11, 12, 13, 14]) 2)[i]? =
        some { file := blobSlice (JsFile.mk "f" 0 [10, 11, 12, 13, 14]).content (i * 2) (i * 2 + 2),
               index := i })
  ∧ (∀ i, i < (createFileChunks (JsFile.mk "f" 0 [10, 11, 12, 13, 14]) 2).length →
      (createFileChunks (JsFile.mk "f" 0 [10, 11, 12, 13, 14]) 2)[i]? =
        some { file := ((JsFile.mk "f" 0 [10, 11, 12, 13, 14]).content.drop (i * 2)).take 2,
               index := i })
  ∧ (∀ i, i < (createFileChunks (JsFile.mk "f" 0 [10, 11, 12, 13, 14]) 2).length → ∀ c,
      (createFileChunks (JsFile.mk "f" 0 [10, 11, 12, 13, 14]) 2)[i]? = some c →
        c.index = i ∧ c.file.length =
          min 2 ((JsFile.mk "f" 0 [10, 11, 12, 13, 14]).content.length - i * 2))
  ∧ (∀ i, i + 1 < (createFileChunks (JsFile.mk "f" 0 [10, 11, 12, 13, 14]) 2).length → ∀ c,
      (createFileChunks (JsFile.mk "f" 0 [10, 11, 12, 13, 14]) 2)[i]? = some c →
        c.file.length = 2)) :=
  ⟨⟨by decide, by decide⟩, createFileChunks_spec (JsFile.mk "f" 0 [10, 11, 12, 13, 14]) 2 (by decide)⟩

/-- C9: `calculateHash` reads only the file's name (each non-alphanumeric
character replaced by an underscore) and its `lastModified` timestamp,
never its bytes: two files with equal names and equal `lastModified`
values get the same fingerprint whatever their contents, and the
fingerprint is exactly the sanitized name followed by an underscore and
the decimal timestamp. -/
theorem calculateHash_depends_only_on_name_mtime (f g : JsFile)
    (hname : f.name = g.name) (hmtime : f.lastModified = g.lastModified) :
    calculateHash f = calculateHash g
  ∧ calculateHash f = safeName f.name ++ "_" ++ toString f.lastModified := by
  constructor
  · unfold calculateHash
    rw [hname, hmtime]
  · rfl

/-- Witness for C9 at concrete files: same name `a.txt` and timestamp 5
but different bytes (`[1]` vs `[2,3]`) — the fingerprints coincide. -/
theorem calculateHash_depends_only_on_name_mtime_witness :
    ((JsFile.mk "a.txt" 5 [1]).name = (JsFile.mk "a.txt" 5 [2, 3]).name
  ∧ (JsFile.mk "a.txt" 5 [1]).lastModified = (JsFile.mk "a.txt" 5 [2, 3]).lastModified
  ∧ (JsFile.mk "a.txt" 5 [1]).content ≠ (JsFile.mk "a.txt" 5 [2, 3]).content)
  ∧ (calculateHash (JsFile.mk "a.txt" 5 [1]) = calculateHash (JsFile.mk "a.txt" 5 [2, 3])
  ∧ calculateHash (JsFile.mk "a.txt" 5 [1]) =
      safeName (JsFile.mk "a.txt" 5 [1]).name ++ "_" ++
        toString (JsFile.mk "a.txt" 5 [1]).lastModified) :=
  ⟨⟨rfl, rfl, by decide⟩,
   calculateHash_depends_only_on_name_mtime (JsFile.mk "a.txt" 5 [1])
     (JsFile.mk "a.txt" 5 [2, 3]) rfl rfl⟩

/-- C3: the fingerprint is NOT a pure function of the file's bytes.  Two
files with identical content but different names receive different
fingerprints, and two files with identical name and timestamp but
different content receive the same fingerprint — `calculateHash` reads
the name and `lastModified` only, contradicting the specified contract
(the spec itself flags this as a correctness gap of the source). -/
theorem calculateHash_not_function_of_bytes :
    (JsFile.mk "a.txt" 1000 [1, 2, 3]).content = (JsFile.mk "b.txt" 1000 [1, 2, 3]).content
  ∧ calculateHash (JsFile.mk "a.txt" 1000 [1, 2, 3]) ≠
      calculateHash (JsFile.mk "b.txt" 1000 [1, 2, 3])
  ∧ (JsFile.mk "a.txt" 1000 [1, 2, 3]).content ≠ (JsFile.mk "a.txt" 1000 [9]).content
  ∧ calculateHash (JsFile.mk "a.txt" 1000 [1, 2, 3]) =
      calculateHash (JsFile.mk "a.txt" 1000 [9]) :=
  ⟨rfl, by decide, by decide, rfl⟩

/-! ## Server state

The server keeps completed artifacts in `uploads/` and staged chunks in
`uploads/chunks/<hash>/<index>` (`routes/index.js` lines 14–15).  Both
directory levels are modelled as association lists from names to contents;
a real directory never holds two entries with the same name, which enters
the theorems as explicit `Nodup` hypotheses on the key lists. -/

/-- `fs` lookup of a directory entry by name (first match). -/
def alookup {α : Type} (l : List (String × α)) (k : String) : Option α :=
  match l with
  | [] => none
  | (k₁, v) :: rest => if k₁ = k then some v else alookup rest k

/-- Write a file: overwrite the entry of that name if present, otherwise
append a new entry (creating a file in a directory). -/
def aset {α : Type} (l : List (String × α)) (k : String) (v : α) : List (String × α) :=
  match l with
  | [] => [(k, v)]
  | (k₁, v₁) :: rest => if k₁ = k then (k, v) :: rest else (k₁, v₁) :: aset rest k v

/-- Delete a file or directory by name (no-op when absent). -/
def aremove {α : Type} (l : List (String × α)) (k : String) : List (String × α) :=
  match l with
  | [] => []
  | (k₁, v₁) :: rest => if k₁ = k then rest else (k₁, v₁) :: aremove rest k

/-- The server's file-system state: `files` is the artifacts directory
(`uploadsDir`), `chunkDirs` maps each fingerprint to its staging
directory, itself a directory of chunk files named by the client-sent
index string. -/
structure ServerState where
  files : List (String × List Nat)
  chunkDirs : List (String × List (String × List Nat))
deriving Repr, DecidableEq

/-! ### Association-list lemmas -/

theorem alookup_aset_self {α : Type} (l : List (String × α)) (k : String) (v : α) :
    alookup (aset l k v) k = some v := by
  induction l with
  | nil => simp [aset, alookup]
  | cons hd tl ih =>
    obtain ⟨k₁, v₁⟩ := hd
    by_cases hk : k₁ = k
    · simp [aset, hk, alookup]
    · simp [aset, hk, alookup, ih]

theorem alookup_aset_ne {α : Type} (l : List (String × α)) (k k₂ : String) (v : α)
    (hne : k₂ ≠ k) : alookup (aset l k v) k₂ = alookup l k₂ := by
  have hne₁ : k ≠ k₂ := Ne.symm hne
  induction l with
  | nil => simp [aset, alookup, hne₁]
  | cons hd tl ih =>
    obtain ⟨k₁, v₁⟩ := hd
    by_cases hk : k₁ = k
    · subst hk
      simp [aset, alookup, hne₁]
    · rw [show aset ((k₁, v₁) :: tl) k v = (k₁, v₁) :: aset tl k v from by simp [aset, hk]]
      simp only [alookup]
      rw [ih]

theorem keys_aset_subset {α : Type} (l : List (String × α)) (k : String) (v : α) :
    ∀ x, x ∈ (aset l k v).map Prod.fst → x ∈ l.map Prod.fst ∨ x = k := by
  induction l with
  | nil =>
    intro x hx
    simp [aset] at hx
    exact Or.inr hx
  | cons hd tl ih =>
    obtain ⟨k₁, v₁⟩ := hd
    intro x hx
    by_cases hk : k₁ = k
    · rw [show aset ((k₁, v₁) :: tl) k v = (k, v) :: tl from by simp [aset, hk]] at hx
      simp only [List.map_cons, List.mem_cons] at hx ⊢
      rcases hx with h | h
      · exact Or.inr h
      · exact Or.inl (Or.inr h)
    · rw [show aset ((k₁, v₁) :: tl) k v = (k₁, v₁) :: aset tl k v from by
        simp [aset, hk]] at hx
      simp only [List.map_cons, List.mem_cons] at hx ⊢
      rcases hx with h | h
      · exact Or.inl (Or.inl h)
      · rcases ih x h with h2 | h2
        · exact Or.inl (Or.inr h2)
        · exact Or.inr h2

theorem nodup_keys_aset {α : Type} (l : List (String × α)) (k : String) (v : α)
    (h : (l.map Prod.fst).Nodup) : ((aset l k v).map Prod.fst).Nodup := by
  induction l with
  | nil => simp [aset]
  | cons hd tl ih =>
    obtain ⟨k₁, v₁⟩ := hd
    simp only [List.map_cons, List.nodup_cons] at h
    by_cases hk : k₁ = k
    · rw [show aset ((k₁, v₁) :: tl) k v = (k, v) :: tl from by simp [aset, hk]]
      simp only [List.map_cons, List.nodup_cons]
      exact ⟨hk ▸ h.1, h.2⟩
    · rw [show aset ((k₁, v₁) :: tl) k v = (k₁, v₁) :: aset tl k v from by simp [aset, hk]]
      simp only [List.map_cons, List.nodup_cons]
      refine ⟨?_, ih h.2⟩
      intro hmem
      rcases keys_aset_subset tl k v k₁ hmem with h2 | h2
      · exact h.1 h2
      · exact hk h2

theorem mem_keys_aset_self {α : Type} (l : List (String × α)) (k : String) (v : α) :
    k ∈ (aset l k v).map Prod.fst := by
  induction l with
  | nil => simp [aset]
  | cons hd tl ih =>
    obtain ⟨k₁, v₁⟩ := hd
    by_cases hk : k₁ = k
    · rw [show aset ((k₁, v₁) :: tl) k v = (k, v) :: tl from by simp [aset, hk]]
      simp
    · rw [show aset ((k₁, v₁) :: tl) k v = (k₁, v₁) :: aset tl k v from by simp [aset, hk]]
      simp only [List.map_cons, List.mem_cons]
      exact Or.inr ih

theorem alookup_none_of_not_mem_keys {α : Type} (l : List (String × α)) (k : String)
    (h : k ∉ l.map Prod.fst) : alookup l k = none := by
  induction l with
  | nil => rfl
  | cons hd tl ih =>
    obtain ⟨k₁, v₁⟩ := hd
    simp only [List.map_cons, List.mem_cons] at h
    have h1 : ¬(k₁ = k) := fun heq => h (Or.inl heq.symm)
    simp only [alookup, if_neg h1]
    exact ih (fun hm => h (Or.inr hm))

theorem alookup_aremove_self {α : Type} (l : List (String × α)) (k : String)
    (h : (l.map Prod.fst).Nodup) : alookup (aremove l k) k = none := by
  induction l with
  | nil => rfl
  | cons hd tl ih =>
    obtain ⟨k₁, v₁⟩ := hd
    simp only [List.map_cons, List.nodup_cons] at h
    by_cases hk : k₁ = k
    · rw [show aremove ((k₁, v₁) :: tl) k = tl from by simp [aremove, hk]]
      exact alookup_none_of_not_mem_keys tl k (hk ▸ h.1)
    · rw [show aremove ((k₁, v₁) :: tl) k = (k₁, v₁) :: aremove tl k from by
        simp [aremove, hk]]
      simp only [alookup, if_neg hk]
      exact ih h.2

/-! ## Merge assembler (`/merge`, `routes/index.js` lines 233–359)

The handler sorts the staged chunk file names with
`chunks.sort((a, b) => parseInt(a) - parseInt(b))`, i.e. by the numeric
value a name parses to.  `parseIdx` embeds `parseInt` on the names the
chunk receiver actually creates — decimal digit strings, taken from the
client's `index.toString()` — by accumulating the leading run of decimal
digits (for such names this is exactly the parsed value; `parseInt`'s
`NaN` result on digit-free names has no counterpart in the protocol and
is not modelled).  JavaScript's `Array.prototype.sort` is a stable
comparison sort (ECMAScript 2019), embedded as the stable
`List.insertionSort`. -/

/-- Value of the leading run of decimal digit characters, accumulator style. -/
def digitsVal : List Char → Nat → Nat
  | [], acc => acc
  | c :: cs, acc =>
    if '0' ≤ c ∧ c ≤ '9' then digitsVal cs (acc * 10 + (c.toNat - Char.toNat '0')) else acc

/-- `parseInt(name)` on a decimal chunk file name. -/
def parseIdx (s : String) : Nat := digitsVal s.data 0

/-- The sort key of a staged chunk directory entry: the numeric value of
its file name. -/
def idxKey (e : String × List Nat) : Nat := parseIdx e.1

/-- The comparator `(a, b) => parseInt(a) - parseInt(b)` orders entries by
non-decreasing numeric name. -/
def idxLe (a b : String × List Nat) : Prop := idxKey a ≤ idxKey b

/-- Strict numeric order on entries: the order in which a completed sort
lists entries with pairwise-distinct numeric names. -/
def idxLt (a b : String × List Nat) : Prop := idxKey a < idxKey b

instance : DecidableRel idxLe := fun a b => Nat.decLe (idxKey a) (idxKey b)

instance : DecidableRel idxLt := fun a b => Nat.decLt (idxKey a) (idxKey b)

instance : IsTotal (String × List Nat) idxLe := ⟨fun a b => Nat.le_total (idxKey a) (idxKey b)⟩

instance : IsTrans (String × List Nat) idxLe := ⟨fun _ _ _ => Nat.le_trans⟩

instance : IsAntisymm (String × List Nat) idxLt :=
  ⟨fun _ _ h h₂ => absurd h (Nat.lt_asymm h₂)⟩

/-- `chunks.sort((a, b) => parseInt(a) - parseInt(b))` applied to the
directory entries (name together with that chunk file's bytes). -/
def sortChunks (entries : List (String × List Nat)) : List (String × List Nat) :=
  List.insertionSort idxLe entries

theorem sortChunks_perm (entries : List (String × List Nat)) :
    (sortChunks entries).Perm entries :=
  List.perm_insertionSort idxLe entries

theorem sortChunks_sorted (entries : List (String × List Nat)) :
    List.Pairwise idxLe (sortChunks entries) :=
  List.sorted_insertionSort idxLe entries

/-- With pairwise-distinct numeric names the sorted list is strictly
increasing in the numeric key. -/
theorem sortChunks_strict (entries : List (String × List Nat))
    (h : (entries.map idxKey).Nodup) :
    List.Pairwise idxLt (sortChunks entries) := by
  have hperm : ((sortChunks entries).map idxKey).Perm (entries.map idxKey) :=
    (sortChunks_perm entries).map idxKey
  have hnodup : ((sortChunks entries).map idxKey).Nodup := hperm.nodup_iff.mpr h
  have hnodup₂ : List.Pairwise (fun a b => idxKey a ≠ idxKey b) (sortChunks entries) := by
    have h₃ : List.Pairwise (fun a b => a ≠ b) ((sortChunks entries).map idxKey) := hnodup
    rwa [List.pairwise_map] at h₃
  have hle := sortChunks_sorted entries
  have hand := hle.and hnodup₂
  exact hand.imp (fun hab => Nat.lt_of_le_of_ne hab.1 hab.2)

/-- Any two strictly-key-sorted arrangements of the same entries coincide:
"the ascending numeric index order" is well defined. -/
theorem strict_sorted_unique (l₁ l₂ : List (String × List Nat))
    (hperm : l₁.Perm l₂) (h₁ : List.Pairwise idxLt l₁) (h₂ : List.Pairwise idxLt l₂) :
    l₁ = l₂ :=
  List.eq_of_perm_of_sorted hperm h₁ h₂

/-- The mismatch message of the merge handler, the template string
`` `分片数量不符，已上传 ${chunks.length}，共 ${total} 个分片` `` — it renders
both the stored count and the declared total. -/
def mismatchMsg (stored total : Nat) : String :=
  "分片数量不符，已上传 " ++ toString stored ++ "，共 " ++ toString total ++ " 个分片"

/-- Outcome of a `/merge` request, mirroring the three JSON responses of
the handler: HTTP 200 `{code: 0, data: {url}}` on success, HTTP 400
`{code: 1, message}` on a chunk-count mismatch (the `stored` and `total`
fields record the two numbers interpolated into the message), and HTTP
500 `{code: 1, message: '文件合并失败'}` from the `catch` block. -/
inductive MergeResult where
  | merged (url : String)
  | mismatch (stored total : Nat) (message : String)
  | failure (message : String)
deriving Repr, DecidableEq

/-- The success tail of the merge handler: all chunk bytes are appended to
the destination file in sorted order, the write stream finishes, the
staging directory is removed (`fsExtra.remove(chunkDir)`), and the success
JSON is returned. -/
def mergeSuccess (s : ServerState) (hash filename : String)
    (sorted : List (String × List Nat)) : MergeResult × ServerState :=
  (MergeResult.merged ("/uploads/" ++ filename),
   ServerState.mk (aset s.files filename (sorted.flatMap Prod.snd))
     (aremove s.chunkDirs hash))

/-- The `/merge` route handler (`routes/index.js` lines 233–359) for a
request body `{hash, filename, size, total}` (`size` is unused by the
handler).  `ioFailAt` is the I/O fault oracle for the streaming loop:
`none` means every `fs.readFile`/`writeStream.write` succeeds, and
`some i` means the read or write of the `i`-th chunk (0-based, in sorted
order) rejects.  Behaviour by branch:

* staging directory absent — `fs.readdir` rejects, control reaches the
  `catch` block: the destination file is unlinked if present and HTTP 500
  is returned;
* `chunks.length !== parseInt(total)` — HTTP 400 with the mismatch
  message, before the write stream is even created, so the state is
  untouched;
* an I/O fault in the loop — the promise rejects into the `catch` block:
  the write stream is destroyed, the partially-written destination file
  is unlinked, HTTP 500 is returned, and the staging directory is kept;
* otherwise — `mergeSuccess`. -/
def mergeHandler (ioFailAt : Option Nat) (s : ServerState) (hash filename : String)
    (total : Nat) : MergeResult × ServerState :=
  match alookup s.chunkDirs hash with
  | none =>
      (MergeResult.failure ("文件合并失败"),
       ServerState.mk (aremove s.files filename) s.chunkDirs)
  | some entries =>
      if entries.length ≠ total then
        (MergeResult.mismatch entries.length total (mismatchMsg entries.length total), s)
      else
        match ioFailAt with
        | some i =>
            if i < (sortChunks entries).length then
              (MergeResult.failure ("文件合并失败"),
               ServerState.mk (aremove s.files filename) s.chunkDirs)
            else
              mergeSuccess s hash filename (sortChunks entries)
        | none => mergeSuccess s hash filename (sortChunks entries)

/-- When the staging directory exists and its entry count equals the
declared total, the fault-free merge writes the numerically sorted
concatenation to the destination and removes the staging directory. -/
theorem mergeHandler_none_success (s : ServerState) (hash filename : String) (total : Nat)
    (entries : List (String × List Nat))
    (hdir : alookup s.chunkDirs hash = some entries)
    (hcount : entries.length = total) :
    mergeHandler none s hash filename total =
      (MergeResult.merged ("/uploads/" ++ filename),
       ServerState.mk (aset s.files filename ((sortChunks entries).flatMap Prod.snd))
         (aremove s.chunkDirs hash)) := by
  unfold mergeHandler
  rw [hdir]
  have hne : ¬(entries.length ≠ total) := fun h => h hcount
  dsimp only
  rw [if_neg hne]
  rfl

/-- C1: for every merge request whose stored chunk count equals the
declared total (with the real-file-system invariant that the stored
numeric indices are pairwise distinct), the merge succeeds and the
artifact's bytes are the concatenation of the stored chunks in ascending
NUMERIC index order: the order used is a permutation of the stored
entries that is strictly increasing in the parsed numeric name, any such
arrangement gives the same bytes, names `"2"` and `"10"` order
numerically (2 before 10) and not lexicographically, and for three chunks
stored under indices 0, 1, 2 in any arrival order the artifact is chunk 0
followed by chunk 1 followed by chunk 2. -/
theorem merge_concatenates_in_numeric_order (s : ServerState) (hash filename : String)
    (total : Nat) (entries : List (String × List Nat))
    (hdir : alookup s.chunkDirs hash = some entries)
    (hcount : entries.length = total)
    (hkeys : (entries.map idxKey).Nodup) :
    (mergeHandler none s hash filename total).1 = MergeResult.merged ("/uploads/" ++ filename)
  ∧ alookup (mergeHandler none s hash filename total).2.files filename =
      some ((sortChunks entries).flatMap Prod.snd)
  ∧ List.Pairwise idxLt (sortChunks entries)
  ∧ (sortChunks entries).Perm entries
  ∧ (∀ asc : List (String × List Nat), asc.Perm entries → List.Pairwise idxLt asc →
      (sortChunks entries).flatMap Prod.snd = asc.flatMap Prod.snd)
  ∧ (∀ b₂ b₁₀ : List Nat,
      sortChunks [("10", b₁₀), ("2", b₂)] = [("2", b₂), ("10", b₁₀)])
  ∧ (∀ c₀ c₁ c₂ : List Nat, ∀ arrival : List (String × List Nat),
      arrival.Perm [("0", c₀), ("1", c₁), ("2", c₂)] →
      ∀ s₂ : ServerState, ∀ hash₂ fn₂ : String,
        alookup s₂.chunkDirs hash₂ = some arrival →
          alookup (mergeHandler none s₂ hash₂ fn₂ 3).2.files fn₂ =
            some (c₀ ++ c₁ ++ c₂)) := by
  have hmain := mergeHandler_none_success s hash filename total entries hdir hcount
  refine ⟨?_, ?_, sortChunks_strict entries hkeys, sortChunks_perm entries, ?_, ?_, ?_⟩
  · rw [hmain]
  · rw [hmain]
    exact alookup_aset_self _ _ _
  · intro asc hperm hsorted
    have heq := strict_sorted_unique (sortChunks entries) asc
      ((sortChunks_perm entries).trans hperm.symm) (sortChunks_strict entries hkeys) hsorted
    rw [heq]
  · intro b₂ b₁₀
    rfl
  · intro c₀ c₁ c₂ arrival hperm s₂ hash₂ fn₂ hdir₂
    have hcount₂ : arrival.length = 3 := by
      rw [hperm.length_eq]
      rfl
    have hkeys₂ : (arrival.map idxKey).Nodup := by
      have h₁ : (arrival.map idxKey).Perm
          ([("0", c₀), ("1", c₁), ("2", c₂)].map idxKey) := hperm.map idxKey
      have h₂ : [("0", c₀), ("1", c₁), ("2", c₂)].map idxKey = [0, 1, 2] := rfl
      rw [h₂] at h₁
      exact h₁.nodup_iff.mpr (by decide)
    have hm₂ := mergeHandler_none_success s₂ hash₂ fn₂ 3 arrival hdir₂ hcount₂
    rw [hm₂]
    have h01 : idxLt ("0", c₀) ("1", c₁) := show parseIdx "0" < parseIdx "1" by decide
    have h02 : idxLt ("0", c₀) ("2", c₂) := show parseIdx "0" < parseIdx "2" by decide
    have h12 : idxLt ("1", c₁) ("2", c₂) := show parseIdx "1" < parseIdx "2" by decide
    have hL : List.Pairwise idxLt [("0", c₀), ("1", c₁), ("2", c₂)] := by
      refine List.Pairwise.cons ?_ (List.Pairwise.cons ?_ (List.pairwise_singleton _ _))
      · intro e he
        simp only [List.mem_cons, List.mem_singleton] at he
        rcases he with rfl | rfl | h
        · exact h01
        · exact h02
        · exact absurd h (List.not_mem_nil e)
      · intro e he
        simp only [List.mem_singleton] at he
        subst he
        exact h12
    have heq := strict_sorted_unique (sortChunks arrival) [("0", c₀), ("1", c₁), ("2", c₂)]
      ((sortChunks_perm arrival).trans hperm) (sortChunks_strict arrival hkeys₂) hL
    have hflat : (sortChunks arrival).flatMap Prod.snd = c₀ ++ c₁ ++ c₂ := by
      rw [heq]
      simp [List.flatMap]
    rw [show (MergeResult.merged ("/uploads/" ++ fn₂),
        ServerState.mk (aset s₂.files fn₂ ((sortChunks arrival).flatMap Prod.snd))
          (aremove s₂.chunkDirs hash₂)).2.files =
        aset s₂.files fn₂ ((sortChunks arrival).flatMap Prod.snd) from rfl]
    rw [hflat]
    exact alookup_aset_self _ _ _

/-- Witness for C1: chunks arrive in order 1, 0, 2 under fingerprint `h`;
merge with declared total 3 produces the artifact `[1] ++ [2] ++ [3]`. -/
theorem merge_concatenates_in_numeric_order_witness :
    (alookup (ServerState.mk []
        [("h", [("1", [2]), ("0", [1]), ("2", [3])])]).chunkDirs "h" =
        some [("1", [2]), ("0", [1]), ("2", [3])]
  ∧ ([("1", [2]), ("0", [1]), ("2", [3])] :
        List (String × List Nat)).length = 3
  ∧ (([("1", [2]), ("0", [1]), ("2", [3])] :
        List (String × List Nat)).map idxKey).Nodup)
  ∧ ((mergeHandler none (ServerState.mk []
        [("h", [("1", [2]), ("0", [1]), ("2", [3])])]) "h" "f.bin" 3).1 =
        MergeResult.merged ("/uploads/" ++ "f.bin")
  ∧ alookup (mergeHandler none (ServerState.mk []
        [("h", [("1", [2]), ("0", [1]), ("2", [3])])]) "h" "f.bin" 3).2.files "f.bin" =
      some ((sortChunks [("1", [2]), ("0", [1]), ("2", [3])]).flatMap Prod.snd)
  ∧ List.Pairwise idxLt (sortChunks [("1", [2]), ("0", [1]), ("2", [3])])
  ∧ (sortChunks [("1", [2]), ("0", [1]), ("2", [3])]).Perm
      [("1", [2]), ("0", [1]), ("2", [3])]
  ∧ (∀ asc : List (String × List Nat),
      asc.Perm [("1", [2]), ("0", [1]), ("2", [3])] → List.Pairwise idxLt asc →
      (sortChunks [("1", [2]), ("0", [1]), ("2", [3])]).flatMap Prod.snd =
        asc.flatMap Prod.snd)
  ∧ (∀ b₂ b₁₀ : List Nat,
      sortChunks [("10", b₁₀), ("2", b₂)] = [("2", b₂), ("10", b₁₀)])
  ∧ (∀ c₀ c₁ c₂ : List Nat, ∀ arrival : List (String × List Nat),
      arrival.Perm [("0", c₀), ("1", c₁), ("2", c₂)] →
      ∀ s₂ : ServerState, ∀ hash₂ fn₂ : String,
        alookup s₂.chunkDirs hash₂ = some arrival →
          alookup (mergeHandler none s₂ hash₂ fn₂ 3).2.files fn₂ =
            some (c₀ ++ c₁ ++ c₂))) :=
  ⟨⟨by decide, by decide, by decide⟩,
   merge_concatenates_in_numeric_order
     (ServerState.mk [] [("h", [("1", [2]), ("0", [1]), ("2", [3])])]) "h" "f.bin" 3
     [("1", [2]), ("0", [1]), ("2", [3])] (by decide) (by decide) (by decide)⟩

/-- C2: whenever the staging directory for the fingerprint exists but its
entry count differs from the declared total, the merge — under any I/O
fault behaviour — returns the HTTP 400 mismatch response whose message
interpolates both the stored count and the declared total, leaves the
artifacts directory untouched (no artifact, not even a partial one, is
created under the target name: the write stream is only created after
this check), and leaves the Chunk Set unchanged. -/
theorem merge_mismatch_never_merges (ioFailAt : Option Nat) (s : ServerState)
    (hash filename : String) (total : Nat) (entries : List (String × List Nat))
    (hdir : alookup s.chunkDirs hash = some entries)
    (hcount : entries.length ≠ total) :
    mergeHandler ioFailAt s hash filename total =
      (MergeResult.mismatch entries.length total (mismatchMsg entries.length total), s)
  ∧ (∀ url, (mergeHandler ioFailAt s hash filename total).1 ≠ MergeResult.merged url)
  ∧ (mergeHandler ioFailAt s hash filename total).2.files = s.files
  ∧ (mergeHandler ioFailAt s hash filename total).2.chunkDirs = s.chunkDirs
  ∧ (∃ pre mid post, mismatchMsg entries.length total =
      pre ++ toString entries.length ++ mid ++ toString total ++ post) := by
  have hmain : mergeHandler ioFailAt s hash filename total =
      (MergeResult.mismatch entries.length total (mismatchMsg entries.length total), s) := by
    unfold mergeHandler
    rw [hdir]
    dsimp only
    rw [if_pos hcount]
  refine ⟨hmain, ?_, ?_, ?_, ?_⟩
  · intro url
    rw [hmain]
    simp
  · rw [hmain]
  · rw [hmain]
  · exact ⟨"分片数量不符，已上传 ", "，共 ", " 个分片", rfl⟩

/-- Witness for C2: one stored chunk, declared total 2 — the merge reports
`stored = 1, total = 2` and the state is unchanged. -/
theorem merge_mismatch_never_merges_witness :
    (alookup (ServerState.mk [] [("h", [("0", [7])])]).chunkDirs "h" = some [("0", [7])]
  ∧ ([("0", [7])] : List (String × List Nat)).length ≠ 2)
  ∧ (mergeHandler none (ServerState.mk [] [("h", [("0", [7])])]) "h" "f.bin" 2 =
      (MergeResult.mismatch 1 2 (mismatchMsg 1 2), ServerState.mk [] [("h", [("0", [7])])])
  ∧ (∀ url, (mergeHandler none (ServerState.mk [] [("h", [("0", [7])])]) "h" "f.bin" 2).1 ≠
      MergeResult.merged url)
  ∧ (mergeHandler none (ServerState.mk [] [("h", [("0", [7])])]) "h" "f.bin" 2).2.files =
      (ServerState.mk [] [("h", [("0", [7])])]).files
  ∧ (mergeHandler none (ServerState.mk [] [("h", [("0", [7])])]) "h" "f.bin" 2).2.chunkDirs =
      (ServerState.mk [] [("h", [("0", [7])])]).chunkDirs
  ∧ (∃ pre mid post, mismatchMsg 1 2 =
      pre ++ toString (1 : Nat) ++ mid ++ toString (2 : Nat) ++ post)) :=
  ⟨⟨by decide, by decide⟩,
   merge_mismatch_never_merges none (ServerState.mk [] [("h", [("0", [7])])]) "h" "f.bin" 2
     [("0", [7])] (by decide) (by decide)⟩

/-- C4: if an I/O failure hits the streaming loop (fault oracle `some i`
with `i` inside the sorted chunk list), the merge returns the HTTP 500
failure — never success —, the partially-written destination file is
gone from the artifacts directory, the fingerprint's Chunk Set is left
exactly as it was, and retrying the same merge without any re-upload
(fault-free this time) succeeds. -/
theorem merge_io_failure_rolls_back (s : ServerState) (hash filename : String)
    (total i : Nat) (entries : List (String × List Nat))
    (hdir : alookup s.chunkDirs hash = some entries)
    (hcount : entries.length = total)
    (hi : i < entries.length)
    (hfiles : (s.files.map Prod.fst).Nodup) :
    (mergeHandler (some i) s hash filename total).1 = MergeResult.failure ("文件合并失败")
  ∧ (∀ url, (mergeHandler (some i) s hash filename total).1 ≠ MergeResult.merged url)
  ∧ alookup (mergeHandler (some i) s hash filename total).2.files filename = none
  ∧ (mergeHandler (some i) s hash filename total).2.chunkDirs = s.chunkDirs
  ∧ (mergeHandler none (mergeHandler (some i) s hash filename total).2 hash filename
      total).1 = MergeResult.merged ("/uploads/" ++ filename) := by
  have hsort : (sortChunks entries).length = entries.length :=
    (sortChunks_perm entries).length_eq
  have hmain : mergeHandler (some i) s hash filename total =
      (MergeResult.failure ("文件合并失败"),
       ServerState.mk (aremove s.files filename) s.chunkDirs) := by
    unfold mergeHandler
    rw [hdir]
    have hne : ¬(entries.length ≠ total) := fun h => h hcount
    dsimp only
    rw [if_neg hne, if_pos (by rw [hsort]; exact hi)]
  refine ⟨by rw [hmain], ?_, ?_, by rw [hmain], ?_⟩
  · intro url
    rw [hmain]
    simp
  · rw [hmain]
    exact alookup_aremove_self s.files filename hfiles
  · rw [hmain]
    rw [mergeHandler_none_success
      (ServerState.mk (aremove s.files filename) s.chunkDirs) hash filename total
      entries hdir hcount]

/-- Witness for C4: a single-chunk merge whose only write fails; the
pre-existing artifact name is cleared, the Chunk Set survives, the retry
merges. -/
theorem merge_io_failure_rolls_back_witness :
    (alookup (ServerState.mk [("f.bin", [9])] [("h", [("0", [7])])]).chunkDirs "h" =
        some [("0", [7])]
  ∧ ([("0", [7])] : List (String × List Nat)).length = 1
  ∧ 0 < ([("0", [7])] : List (String × List Nat)).length
  ∧ (((ServerState.mk [("f.bin", [9])] [("h", [("0", [7])])]).files.map Prod.fst).Nodup))
  ∧ ((mergeHandler (some 0) (ServerState.mk [("f.bin", [9])] [("h", [("0", [7])])])
        "h" "f.bin" 1).1 = MergeResult.failure ("文件合并失败")
  ∧ (∀ url, (mergeHandler (some 0) (ServerState.mk [("f.bin", [9])] [("h", [("0", [7])])])
        "h" "f.bin" 1).1 ≠ MergeResult.merged url)
  ∧ alookup (mergeHandler (some 0) (ServerState.mk [("f.bin", [9])] [("h", [("0", [7])])])
        "h" "f.bin" 1).2.files "f.bin" = none
  ∧ (mergeHandler (some 0) (ServerState.mk [("f.bin", [9])] [("h", [("0", [7])])])
        "h" "f.bin" 1).2.chunkDirs =
      (ServerState.mk [("f.bin", [9])] [("h", [("0", [7])])]).chunkDirs
  ∧ (mergeHandler none (mergeHandler (some 0)
        (ServerState.mk [("f.bin", [9])] [("h", [("0", [7])])]) "h" "f.bin" 1).2
        "h" "f.bin" 1).1 = MergeResult.merged ("/uploads/" ++ "f.bin")) :=
  ⟨⟨by decide, by decide, by decide, by decide⟩,
   merge_io_failure_rolls_back (ServerState.mk [("f.bin", [9])] [("h", [("0", [7])])])
     "h" "f.bin" 1 0 [("0", [7])] (by decide) (by decide) (by decide) (by decide)⟩

/-- C10: the merge handler checks only that the number of stored chunks
equals the declared total — it never checks that the stored indices form
the contiguous range `0..total-1`.  Any staging directory with a matching
count merges successfully; in particular a Chunk Set holding only indices
0 and 2 with declared total 2 succeeds and the artifact is chunk 0
followed by chunk 2. -/
theorem merge_skips_contiguity_check (s : ServerState) (hash filename : String)
    (total : Nat) (entries : List (String × List Nat))
    (hdir : alookup s.chunkDirs hash = some entries)
    (hcount : entries.length = total) :
    (mergeHandler none s hash filename total).1 = MergeResult.merged ("/uploads/" ++ filename)
  ∧ (∀ c₀ c₂ : List Nat, ∀ s₂ : ServerState, ∀ hash₂ fn₂ : String,
      alookup s₂.chunkDirs hash₂ = some [("0", c₀), ("2", c₂)] →
        mergeHandler none s₂ hash₂ fn₂ 2 =
          (MergeResult.merged ("/uploads/" ++ fn₂),
           ServerState.mk (aset s₂.files fn₂ (c₀ ++ c₂)) (aremove s₂.chunkDirs hash₂))) := by
  constructor
  · rw [mergeHandler_none_success s hash filename total entries hdir hcount]
  · intro c₀ c₂ s₂ hash₂ fn₂ hdir₂
    have hm := mergeHandler_none_success s₂ hash₂ fn₂ 2 [("0", c₀), ("2", c₂)] hdir₂ rfl
    have hsc : sortChunks [("0", c₀), ("2", c₂)] = [("0", c₀), ("2", c₂)] := rfl
    have hfm : ([("0", c₀), ("2", c₂)] : List (String × List Nat)).flatMap Prod.snd =
        c₀ ++ c₂ := by simp
    rw [hm, hsc, hfm]

/-- Witness for C10: a Chunk Set `{0 ↦ [1], 2 ↦ [3]}` with declared total
2 merges into the artifact `[1, 3]`. -/
theorem merge_skips_contiguity_check_witness :
    (alookup (ServerState.mk [] [("h", [("0", [1]), ("2", [3])])]).chunkDirs "h" =
        some [("0", [1]), ("2", [3])]
  ∧ ([("0", [1]), ("2", [3])] : List (String × List Nat)).length = 2)
  ∧ ((mergeHandler none (ServerState.mk [] [("h", [("0", [1]), ("2", [3])])])
        "h" "f.bin" 2).1 = MergeResult.merged ("/uploads/" ++ "f.bin")
  ∧ (∀ c₀ c₂ : List Nat, ∀ s₂ : ServerState, ∀ hash₂ fn₂ : String,
      alookup s₂.chunkDirs hash₂ = some [("0", c₀), ("2", c₂)] →
        mergeHandler none s₂ hash₂ fn₂ 2 =
          (MergeResult.merged ("/uploads/" ++ fn₂),
           ServerState.mk (aset s₂.files fn₂ (c₀ ++ c₂)) (aremove s₂.chunkDirs hash₂)))) :=
  ⟨⟨by decide, by decide⟩,
   merge_skips_contiguity_check (ServerState.mk [] [("h", [("0", [1]), ("2", [3])])])
     "h" "f.bin" 2 [("0", [1]), ("2", [3])] (by decide) (by decide)⟩

/-! ## Chunk receiver (`/upload`, `routes/index.js` lines 26–80, 169–230)

`multer.diskStorage` chooses the destination first — rejecting when the
`x-hash` header is absent, otherwise creating `chunks/<hash>/` if needed —
then the file name — rejecting when `x-index` is absent — and finally
streams the part body into `chunks/<hash>/<index>`, overwriting any file
already there.  The multer instance is configured with
`limits: { fileSize: 10 * 1024 * 1024 }` (lines 74–80): a part body that
exceeds 10 MiB aborts the write with a `LIMIT_FILE_SIZE` multer error
(message "File too large"), multer unlinks the partially-written chunk
file, and the route's error callback answers HTTP 400 — so an over-limit
upload leaves no entry for that index, clobbering whatever the name held
before (`fs.createWriteStream` had already truncated it).  (The
abort-mid-body handler, which likewise deletes the partial chunk, is
demanded only by claims about the client trace and is represented
there.) -/

/-- Outcome of a `/upload` request: HTTP 200 `{code: 0, data: {index, hash}}`,
or the HTTP 400 error produced when a multer callback rejects or the
10 MiB `limits.fileSize` bound is exceeded. -/
inductive UploadResult where
  | uploaded (index hash : String)
  | clientError (message : String)
deriving Repr, DecidableEq

/-- `limits.fileSize` of the multer instance
(`routes/index.js` lines 74–80): `10 * 1024 * 1024` bytes. -/
def uploadMaxFileSize : Nat := 10 * 1024 * 1024

/-- `destination`: create the fingerprint's staging directory when absent
(`fs.mkdirSync(chunkDir, {recursive: true})`). -/
def ensureChunkDir (dirs : List (String × List (String × List Nat))) (hash : String) :
    List (String × List (String × List Nat)) :=
  match alookup dirs hash with
  | some _ => dirs
  | none => aset dirs hash []

/-- The `/upload` route handler for transport metadata `{x-hash, x-index}`
and the chunk's bytes.  A body within the 10 MiB limit is stored
(overwriting any previous file of that name); a body over the limit
yields the 400 `LIMIT_FILE_SIZE` error and the partially-written chunk
file is unlinked, removing the index's entry. -/
def uploadHandler (s : ServerState) (hashHdr indexHdr : Option String) (bytes : List Nat) :
    UploadResult × ServerState :=
  match hashHdr with
  | none => (UploadResult.clientError ("Missing hash parameter"), s)
  | some hash =>
    let dirs := ensureChunkDir s.chunkDirs hash
    match indexHdr with
    | none => (UploadResult.clientError ("Missing index parameter"),
               ServerState.mk s.files dirs)
    | some index =>
      let dir := (alookup dirs hash).getD []
      if bytes.length ≤ uploadMaxFileSize then
        (UploadResult.uploaded index hash,
         ServerState.mk s.files (aset dirs hash (aset dir index bytes)))
      else
        (UploadResult.clientError ("File too large"),
         ServerState.mk s.files (aset dirs hash (aremove dir index)))

theorem alookup_ensureChunkDir_self (dirs : List (String × List (String × List Nat)))
    (hash : String) :
    alookup (ensureChunkDir dirs hash) hash = some ((alookup dirs hash).getD []) := by
  unfold ensureChunkDir
  cases h : alookup dirs hash with
  | none =>
    rw [alookup_aset_self]
    rfl
  | some dir =>
    dsimp only
    simp only [Option.getD_some]
    exact h

theorem nodup_keys_ensureChunkDir (dirs : List (String × List (String × List Nat)))
    (hash : String) (h : (dirs.map Prod.fst).Nodup) :
    ((ensureChunkDir dirs hash).map Prod.fst).Nodup := by
  unfold ensureChunkDir
  cases alookup dirs hash with
  | none => exact nodup_keys_aset dirs hash [] h
  | some dir => exact h

/-- C6: uploading the same `(fingerprint, index)` pair twice is
idempotent.  Starting from any server state with well-formed directories
(no duplicate file names), for chunk bodies within the receiver's 10 MiB
`limits.fileSize` bound (every chunk the 5 MiB splitter produces is),
after two uploads of the same pair the second one is accepted — an
overwrite, not an error —, the fingerprint's Chunk Set holds exactly one
entry for that index, and that entry's bytes are those of the most
recent write. -/
theorem upload_same_index_idempotent (s : ServerState) (hash index : String)
    (b₁ b₂ : List Nat)
    (hb₁ : b₁.length ≤ uploadMaxFileSize)
    (hb₂ : b₂.length ≤ uploadMaxFileSize)
    (hdir : (((alookup s.chunkDirs hash).getD []).map Prod.fst).Nodup) :
    (uploadHandler (uploadHandler s (some hash) (some index) b₁).2
        (some hash) (some index) b₂).1 = UploadResult.uploaded index hash
  ∧ (((alookup (uploadHandler (uploadHandler s (some hash) (some index) b₁).2
        (some hash) (some index) b₂).2.chunkDirs hash).getD []).map Prod.fst).count index = 1
  ∧ alookup ((alookup (uploadHandler (uploadHandler s (some hash) (some index) b₁).2
        (some hash) (some index) b₂).2.chunkDirs hash).getD []) index = some b₂ := by
  have hd₀ : alookup (ensureChunkDir s.chunkDirs hash) hash =
      some ((alookup s.chunkDirs hash).getD []) := alookup_ensureChunkDir_self _ _
  have hs₁ : (uploadHandler s (some hash) (some index) b₁).2 =
      ServerState.mk s.files
        (aset (ensureChunkDir s.chunkDirs hash) hash
          (aset ((alookup s.chunkDirs hash).getD []) index b₁)) := by
    unfold uploadHandler
    dsimp only
    rw [hd₀]
    rw [if_pos hb₁]
    rfl
  set dir₁ : List (String × List Nat) :=
    aset ((alookup s.chunkDirs hash).getD []) index b₁ with hdir₁
  set dirs₁ : List (String × List (String × List Nat)) :=
    aset (ensureChunkDir s.chunkDirs hash) hash dir₁ with hdirs₁
  have hlook₁ : alookup dirs₁ hash = some dir₁ := alookup_aset_self _ _ _
  have hens₁ : ensureChunkDir dirs₁ hash = dirs₁ := by
    unfold ensureChunkDir
    rw [hlook₁]
  have hs₂ : (uploadHandler (uploadHandler s (some hash) (some index) b₁).2
      (some hash) (some index) b₂).2 =
      ServerState.mk s.files (aset dirs₁ hash (aset dir₁ index b₂)) := by
    rw [hs₁]
    unfold uploadHandler
    dsimp only
    rw [hens₁, hlook₁]
    rw [if_pos hb₂]
    simp only [Option.getD_some]
  have hr₂ : (uploadHandler (uploadHandler s (some hash) (some index) b₁).2
      (some hash) (some index) b₂).1 = UploadResult.uploaded index hash := by
    unfold uploadHandler
    dsimp only
    rw [if_pos hb₂]
  have hfinal : alookup (aset dirs₁ hash (aset dir₁ index b₂)) hash =
      some (aset dir₁ index b₂) := alookup_aset_self _ _ _
  have hnodup₁ : (dir₁.map Prod.fst).Nodup := nodup_keys_aset _ _ _ hdir
  have hnodup₂ : ((aset dir₁ index b₂).map Prod.fst).Nodup := nodup_keys_aset _ _ _ hnodup₁
  have hmem : index ∈ (aset dir₁ index b₂).map Prod.fst := mem_keys_aset_self _ _ _
  refine ⟨hr₂, ?_, ?_⟩
  · rw [hs₂]
    dsimp only
    rw [hfinal]
    exact List.count_eq_one_of_mem hnodup₂ hmem
  · rw [hs₂]
    dsimp only
    rw [hfinal]
    exact alookup_aset_self _ _ _

/-- Witness for C6: two uploads of index `0` under fingerprint `h` onto an
empty server; the Chunk Set ends with the single entry `0 ↦ [4, 5]`. -/
theorem upload_same_index_idempotent_witness :
    (([1, 2] : List Nat).length ≤ uploadMaxFileSize
  ∧ ([4, 5] : List Nat).length ≤ uploadMaxFileSize
  ∧ (((alookup (ServerState.mk [] []).chunkDirs "h").getD []).map Prod.fst).Nodup)
  ∧ ((uploadHandler (uploadHandler (ServerState.mk [] []) (some "h") (some "0") [1, 2]).2
        (some "h") (some "0") [4, 5]).1 = UploadResult.uploaded "0" "h"
  ∧ (((alookup (uploadHandler (uploadHandler (ServerState.mk [] [])
        (some "h") (some "0") [1, 2]).2
        (some "h") (some "0") [4, 5]).2.chunkDirs "h").getD []).map Prod.fst).count "0" = 1
  ∧ alookup ((alookup (uploadHandler (uploadHandler (ServerState.mk [] [])
        (some "h") (some "0") [1, 2]).2
        (some "h") (some "0") [4, 5]).2.chunkDirs "h").getD []) "0" = some [4, 5]) :=
  ⟨⟨by decide, by decide, by decide⟩,
   upload_same_index_idempotent (ServerState.mk [] []) "h" "0" [1, 2] [4, 5]
     (by decide) (by decide) (by decide)⟩

/-! ## Status resolver (`/check`, `routes/index.js` lines 83–166)

The handler destructures `{hash, filename}` from the body with no
validation and immediately calls `path.join(uploadsDir, filename)`.  When
`filename` is `undefined`, `path.join` throws a `TypeError`, which lands
in the `catch` block and produces HTTP 500 — not a 4xx client error.
When only `hash` is `undefined` the artifact-existence check still runs:
if the artifact exists the fast-path success response is sent; otherwise
`path.join(chunksDir, undefined)` throws and again yields HTTP 500.  The
handler performs reads only (`fs.access`, `fs.readdir`), so the state is
returned unchanged on every path. -/

/-- Outcome of a `/check` request: the three HTTP 200 JSON bodies
(`exists: true` with a URL; `exists: false` with no Chunk Set;
`exists: false` with the stored chunk names) and the HTTP 500 body of the
`catch` block. -/
inductive CheckResult where
  | artifactPresent (url : String)
  | noChunkSet
  | chunkList (uploadedChunks : List String)
  | serverFailure (message : String)
deriving Repr, DecidableEq

/-- The HTTP status code carried by each `/check` outcome. -/
def CheckResult.status : CheckResult → Nat
  | CheckResult.artifactPresent _ => 200
  | CheckResult.noChunkSet => 200
  | CheckResult.chunkList _ => 200
  | CheckResult.serverFailure _ => 500

/-- A client-error signal in the HTTP sense: a 4xx status. -/
def isClientErrorStatus (n : Nat) : Prop := 400 ≤ n ∧ n < 500

instance (n : Nat) : Decidable (isClientErrorStatus n) :=
  inferInstanceAs (Decidable (400 ≤ n ∧ n < 500))

/-- The `/check` route handler for a body `{hash, filename}`; `none`
models an absent field. -/
def checkHandler (s : ServerState) (hash filename : Option String) :
    CheckResult × ServerState :=
  match filename with
  | none => (CheckResult.serverFailure ("检查文件失败"), s)
  | some fname =>
    match alookup s.files fname with
    | some _ => (CheckResult.artifactPresent ("/uploads/" ++ fname), s)
    | none =>
      match hash with
      | none => (CheckResult.serverFailure ("检查文件失败"), s)
      | some h =>
        match alookup s.chunkDirs h with
        | none => (CheckResult.noChunkSet, s)
        | some entries => (CheckResult.chunkList (entries.map Prod.fst), s)

/-- C5/C8 shape of the claim refuted: a status-check request that is
missing the artifact name is answered with HTTP 500 — a server error, not
the client-error signal the claim requires — at the concrete input
`hash = "h"`, `filename` absent, empty server.  A request missing only
the fingerprint while the artifact exists is not answered with an error
at all but with the fast-path success. -/
theorem check_missing_name_not_client_error :
    (checkHandler (ServerState.mk [] []) (some "h") none).1 =
      CheckResult.serverFailure ("检查文件失败")
  ∧ (checkHandler (ServerState.mk [] []) (some "h") none).1.status = 500
  ∧ ¬ isClientErrorStatus (checkHandler (ServerState.mk [] []) (some "h") none).1.status
  ∧ (checkHandler (ServerState.mk [] []) none (some "a.txt")).1.status = 500
  ∧ (checkHandler (ServerState.mk [("a.txt", [1])] []) none (some "a.txt")).1 =
      CheckResult.artifactPresent ("/uploads/a.txt") := by
  refine ⟨rfl, rfl, by decide, rfl, rfl⟩

/-- C8 (amended): a status-check request missing the artifact name is
rejected with a server-error signal (HTTP 500), never a 4xx client error;
a request missing only the fingerprint gets the fast-path success
response when an artifact of that name exists and the server-error signal
otherwise; in every such case the handler performs no side effect (the
state is returned unchanged). -/
theorem check_missing_identifier_behaviour (s : ServerState) (hash : Option String)
    (fname : String) :
    checkHandler s hash none = (CheckResult.serverFailure ("检查文件失败"), s)
  ∧ (checkHandler s hash none).1.status = 500
  ∧ ¬ isClientErrorStatus (checkHandler s hash none).1.status
  ∧ (alookup s.files fname = none →
      checkHandler s none (some fname) = (CheckResult.serverFailure ("检查文件失败"), s))
  ∧ (∀ bytes, alookup s.files fname = some bytes →
      checkHandler s none (some fname) =
        (CheckResult.artifactPresent ("/uploads/" ++ fname), s))
  ∧ (checkHandler s hash none).2 = s
  ∧ (checkHandler s none (some fname)).2 = s := by
  refine ⟨rfl, rfl, show ¬ isClientErrorStatus 500 from by decide, ?_, ?_, rfl, ?_⟩
  · intro hnone
    unfold checkHandler
    dsimp only
    rw [hnone]
  · intro bytes hsome
    unfold checkHandler
    dsimp only
    rw [hsome]
  · unfold checkHandler
    dsimp only
    cases alookup s.files fname with
    | some bytes => rfl
    | none => rfl

/-- Witness for C8 (amended) at a concrete input: empty server, fingerprint
`h` present, artifact name absent. -/
theorem check_missing_identifier_behaviour_witness :
    checkHandler (ServerState.mk [] []) (some "h") none =
      (CheckResult.serverFailure ("检查文件失败"), ServerState.mk [] [])
  ∧ (checkHandler (ServerState.mk [] []) (some "h") none).1.status = 500
  ∧ ¬ isClientErrorStatus (checkHandler (ServerState.mk [] []) (some "h") none).1.status
  ∧ (alookup (ServerState.mk [] []).files "a.txt" = none →
      checkHandler (ServerState.mk [] []) none (some "a.txt") =
        (CheckResult.serverFailure ("检查文件失败"), ServerState.mk [] []))
  ∧ (∀ bytes, alookup (ServerState.mk [] []).files "a.txt" = some bytes →
      checkHandler (ServerState.mk [] []) none (some "a.txt") =
        (CheckResult.artifactPresent ("/uploads/" ++ "a.txt"), ServerState.mk [] []))
  ∧ (checkHandler (ServerState.mk [] []) (some "h") none).2 = ServerState.mk [] []
  ∧ (checkHandler (ServerState.mk [] []) none (some "a.txt")).2 = ServerState.mk [] [] :=
  check_missing_identifier_behaviour (ServerState.mk [] []) (some "h") "a.txt"

/-! ## Upload orchestrator (`FileUploader.tsx` + `uploadService.ts`)

The component is embedded as the trace of externally visible events of one
batch run of `handleFileChange` (the drag-and-drop path `handleDrop` runs
the identical loop).  The model covers the fresh-upload path: the status
check reports `exists: false` with no previously stored chunks, so no
chunk is skipped and no fast path is taken — cancellation behaviour is
the same on the resume path.

Sequencing facts of the source the trace encodes (JavaScript is
single-threaded; `await` marks its interleaving points):

* `handleFileUpload` (lines 142–257) per file: `updateProgress({status:
  'uploading'})`, `checkFileStatus`, then for each chunk it stores
  `currentUploadRef`, creates a per-chunk `AbortController` and awaits
  `uploadChunk`; after the loop, `mergeChunks` — guarded by
  `!isCancelledRef.current`.
* `cancelUpload` (lines 85–135), triggered while a chunk transfer is in
  flight: synchronously sets `isCancelledRef`/the service-level flag and
  calls `abortControllerRef.current.abort()` (aborting the in-flight
  transport request), then posts `/cleanup` for the `currentUploadRef`
  chunk, awaits the settled cleanup, awaits `setTimeout(..., 100)` and
  only then issues `updateProgress({status: 'cancelled'})`.
* the aborted `uploadChunk` promise rejects as a cancellation;
  `handleFileUpload` catches it, sets `isCancelledRef` and returns
  WITHOUT calling merge; every later `handleFileUpload` of the batch
  returns at its `isCancelling || isCancelledRef.current` guard; the
  `for` loop of `handleFileChange` (lines 267–283) then finishes and
  unconditionally runs `updateProgress({percentage: 100, status:
  'success', ...})` — `handleFileUpload` swallows every error, so the
  `catch` of `handleFileChange` is unreachable.
* the batch loop resumes on (micro)tasks while `cancelUpload` still
  waits on its 100 ms timer, so the batch's `'success'` report precedes
  `cancelUpload`'s final `'cancelled'` report. -/

/-- The `status` values of the component's `UploadProgress` state. -/
inductive UStatus where
  | waiting
  | uploading
  | success
  | error
  | rapidSuccess
  | cancelled
deriving Repr, DecidableEq

/-- Externally visible events of one batch run: transport requests
(status check, chunk upload, `/cleanup`, `/merge`), the abort of the
in-flight transport operation, and every `status` change reported to the
caller through `updateProgress`. -/
inductive UEvent where
  | checkStatus (hash name : String)
  | chunkUpload (hash : String) (index : Nat)
  | abortInFlight (hash : String) (index : Nat)
  | cleanupReq (hash : String) (index : Nat)
  | mergeReq (hash name : String)
  | report (st : UStatus)
deriving Repr, DecidableEq

/-- Events of `handleFileUpload` for one file.  `cancelAt = none`: the
file uploads completely and merge is requested.  `cancelAt = some j`:
cancellation is raised while chunk `j` is in flight — the transport
request is aborted, `/cleanup` is posted for exactly that chunk
(`currentUploadRef`), and the function returns without requesting
merge. -/
def uploadFileTrace (f : JsFile) (cancelAt : Option Nat) : List UEvent :=
  UEvent.report UStatus.uploading ::
  UEvent.checkStatus (calculateHash f) f.name ::
  (match cancelAt with
   | none =>
      ((createFileChunksDefault f).map fun c =>
        UEvent.chunkUpload (calculateHash f) c.index) ++
      [UEvent.mergeReq (calculateHash f) f.name]
   | some j =>
      (((createFileChunksDefault f).take j).map fun c =>
        UEvent.chunkUpload (calculateHash f) c.index) ++
      (match (createFileChunksDefault f)[j]? with
       | some c =>
          [UEvent.chunkUpload (calculateHash f) c.index,
           UEvent.abortInFlight (calculateHash f) c.index,
           UEvent.cleanupReq (calculateHash f) c.index]
       | none => []))

/-- Events of one `handleFileChange` batch.  Without cancellation every
file runs to completion and the loop ends with the unconditional
`'success'` report.  With cancellation raised during chunk `j` of file
`k`, the earlier files complete (merges included), file `k` is
interrupted, the remaining files are skipped by the cancellation guard,
the batch still reports `'success'`, and `cancelUpload`'s delayed
`'cancelled'` report lands last. -/
def runBatchTrace (files : List JsFile) (cancelAt : Option (Nat × Nat)) : List UEvent :=
  match cancelAt with
  | none =>
      (files.flatMap fun f => uploadFileTrace f none) ++
      [UEvent.report UStatus.success]
  | some (k, j) =>
      ((files.take k).flatMap fun f => uploadFileTrace f none) ++
      (match files[k]? with
       | some f => uploadFileTrace f (some j)
       | none => []) ++
      [UEvent.report UStatus.success, UEvent.report UStatus.cancelled]

theorem createFileChunksDefault_index (f : JsFile) (j : Nat)
    (hj : j < (createFileChunksDefault f).length) :
    ∃ b, (createFileChunksDefault f)[j]? = some (Chunk.mk b j) := by
  have hs : 0 < defaultChunkSize := by decide
  have hlt := (createFileChunks_index_lt_iff f defaultChunkSize hs j).mp hj
  exact ⟨_, createFileChunks_get f defaultChunkSize j hs hlt⟩

/-- C5 counterexample: one single-chunk file, cancellation raised while
chunk 0 is in flight.  The transport is aborted and `/cleanup` is posted,
no merge is requested — but the batch handler still reports `'success'`
to the caller after the cancellation, refuting the claim's "the outcome
reported to the caller is 'cancelled', never 'success'". -/
theorem cancelled_batch_still_reports_success :
    runBatchTrace [JsFile.mk "a.txt" 1000 [7]] (some (0, 0)) =
      [UEvent.report UStatus.uploading,
       UEvent.checkStatus ("a_txt_1000") ("a.txt"),
       UEvent.chunkUpload ("a_txt_1000") 0,
       UEvent.abortInFlight ("a_txt_1000") 0,
       UEvent.cleanupReq ("a_txt_1000") 0,
       UEvent.report UStatus.success,
       UEvent.report UStatus.cancelled]
  ∧ UEvent.report UStatus.success ∈ runBatchTrace [JsFile.mk "a.txt" 1000 [7]] (some (0, 0)) := by
  constructor
  · decide
  · decide

/-- C5 (amended): once cancellation is raised while chunk `j` of file `k`
is in flight, the in-flight transport operation is aborted, `/cleanup`
(the Cleanup Handler) is invoked for exactly that chunk, no merge request
occurs from the abort onward, and the last outcome reported is
`'cancelled'` — but the batch completion handler first reports a
transient `'success'` after the cancelled upload, so "never `'success'`"
does not hold. -/
theorem cancellation_aborts_cleans_and_skips_merge (files : List JsFile) (k j : Nat)
    (f : JsFile) (hk : files[k]? = some f)
    (hj : j < (createFileChunksDefault f).length) :
    (∃ pre : List UEvent,
      runBatchTrace files (some (k, j)) =
        pre ++ [UEvent.chunkUpload (calculateHash f) j,
                UEvent.abortInFlight (calculateHash f) j,
                UEvent.cleanupReq (calculateHash f) j,
                UEvent.report UStatus.success,
                UEvent.report UStatus.cancelled])
  ∧ (∀ h n, UEvent.mergeReq h n ∉
      ([UEvent.abortInFlight (calculateHash f) j,
        UEvent.cleanupReq (calculateHash f) j,
        UEvent.report UStatus.success,
        UEvent.report UStatus.cancelled] : List UEvent))
  ∧ (runBatchTrace files (some (k, j))).getLast? = some (UEvent.report UStatus.cancelled)
  ∧ UEvent.report UStatus.success ∈ runBatchTrace files (some (k, j)) := by
  obtain ⟨b, hb⟩ := createFileChunksDefault_index f j hj
  have htrace : runBatchTrace files (some (k, j)) =
      (((files.take k).flatMap fun f₂ => uploadFileTrace f₂ none) ++
       (UEvent.report UStatus.uploading ::
        UEvent.checkStatus (calculateHash f) f.name ::
        (((createFileChunksDefault f).take j).map fun c =>
          UEvent.chunkUpload (calculateHash f) c.index))) ++
      [UEvent.chunkUpload (calculateHash f) j,
       UEvent.abortInFlight (calculateHash f) j,
       UEvent.cleanupReq (calculateHash f) j,
       UEvent.report UStatus.success,
       UEvent.report UStatus.cancelled] := by
    unfold runBatchTrace
    dsimp only
    rw [hk]
    unfold uploadFileTrace
    dsimp only
    rw [hb]
    dsimp only
    simp [List.append_assoc]
  refine ⟨⟨_, htrace⟩, ?_, ?_, ?_⟩
  · intro h n
    simp
  · rw [htrace]
    rw [show ([UEvent.chunkUpload (calculateHash f) j,
        UEvent.abortInFlight (calculateHash f) j,
        UEvent.cleanupReq (calculateHash f) j,
        UEvent.report UStatus.success,
        UEvent.report UStatus.cancelled] : List UEvent) =
        [UEvent.chunkUpload (calculateHash f) j,
         UEvent.abortInFlight (calculateHash f) j,
         UEvent.cleanupReq (calculateHash f) j,
         UEvent.report UStatus.success] ++
        [UEvent.report UStatus.cancelled] from rfl]
    rw [← List.append_assoc]
    exact List.getLast?_concat _
  · rw [htrace]
    simp

/-- Witness for C5 (amended) at a concrete input: one single-chunk file,
cancellation raised during chunk 0. -/
theorem cancellation_aborts_cleans_and_skips_merge_witness :
    (([JsFile.mk "a.txt" 1000 [7]] : List JsFile)[0]? = some (JsFile.mk "a.txt" 1000 [7])
  ∧ 0 < (createFileChunksDefault (JsFile.mk "a.txt" 1000 [7])).length)
  ∧ ((∃ pre : List UEvent,
      runBatchTrace [JsFile.mk "a.txt" 1000 [7]] (some (0, 0)) =
        pre ++ [UEvent.chunkUpload (calculateHash (JsFile.mk "a.txt" 1000 [7])) 0,
                UEvent.abortInFlight (calculateHash (JsFile.mk "a.txt" 1000 [7])) 0,
                UEvent.cleanupReq (calculateHash (JsFile.mk "a.txt" 1000 [7])) 0,
                UEvent.report UStatus.success,
                UEvent.report UStatus.cancelled])
  ∧ (∀ h n, UEvent.mergeReq h n ∉
      ([UEvent.abortInFlight (calculateHash (JsFile.mk "a.txt" 1000 [7])) 0,
        UEvent.cleanupReq (calculateHash (JsFile.mk "a.txt" 1000 [7])) 0,
        UEvent.report UStatus.success,
        UEvent.report UStatus.cancelled] : List UEvent))
  ∧ (runBatchTrace [JsFile.mk "a.txt" 1000 [7]] (some (0, 0))).getLast? =
      some (UEvent.report UStatus.cancelled)
  ∧ UEvent.report UStatus.success ∈
      runBatchTrace [JsFile.mk "a.txt" 1000 [7]] (some (0, 0))) :=
  ⟨⟨by decide, by decide⟩,
   cancellation_aborts_cleans_and_skips_merge [JsFile.mk "a.txt" 1000 [7]] 0 0
     (JsFile.mk "a.txt" 1000 [7]) (by decide) (by decide)⟩
